import Mathlib

/-!
Verification of the parameter-normalization and cross-workspace aggregation
layer of the Clickup_API repository (src/clickup_api/handlers.py and
src/clickup_api_oop/additional_methods.py, with the drifted duplicate in
src/clickup_api/clickup_api.py noted where it differs).

The embedding is shallow: Python dictionaries keyed by insertion order are
modelled as association lists, Python exceptions as an explicit error sum
returned through Except, and the in-place mutation performed by list.append
as explicit state passing (each mutating helper returns the final contents
of the argument object of the caller alongside the returned value).
Exception message texts are elided down to their static parts; quote
characters that appear in the original messages are dropped.
-/

deriving instance DecidableEq for Except

namespace ClickupAPI

/-- PyErr models the Python exception classes raised by the code under
verification.  The payload is the (abbreviated) message text. -/
inductive PyErr where
  | typeError (msg : String)
  | valueError (msg : String)
  | attributeError (msg : String)
  | referenceError (msg : String)
  | nameError (msg : String)
  deriving DecidableEq, Repr

/-- PyAtom models the scalar Python values that appear as elements of the
argument lists of the normalization helpers. -/
inductive PyAtom where
  | anone
  | abool (b : Bool)
  | aint (n : Int)
  | astr (s : String)
  deriving DecidableEq, Repr

/-- PyV models the Python values that flow through the normalization
helpers: None, booleans, integers, strings, and lists/tuples of scalars
(every list the code under verification receives holds scalars). -/
inductive PyV where
  | vnone
  | vbool (b : Bool)
  | vint (n : Int)
  | vstr (s : String)
  | vlist (xs : List PyAtom)
  | vtuple (xs : List PyAtom)
  deriving DecidableEq, Repr

/-- Python truthiness: None, False, 0, the empty string and empty
list/tuple are falsy; everything else is truthy. -/
def pyTruthy : PyV → Bool
  | .vnone => false
  | .vbool b => b
  | .vint n => n != 0
  | .vstr s => s != ""
  | .vlist xs => !xs.isEmpty
  | .vtuple xs => !xs.isEmpty

/-- Rendering of type(value) as interpolated into the error messages. -/
def pyTypeName : PyV → String
  | .vnone => "<class NoneType>"
  | .vbool _ => "<class bool>"
  | .vint _ => "<class int>"
  | .vstr _ => "<class str>"
  | .vlist _ => "<class list>"
  | .vtuple _ => "<class tuple>"

/-- Value of a list of decimal digit characters read positionally, as the
Python builtin int produces on a digit string (leading zeros allowed). -/
def digitsToNat : List Char → Nat
  | [] => 0
  | c :: cs => (c.toNat - 48) * 10 ^ cs.length + digitsToNat cs

/-- The Python builtin int applied to a string: surrounding whitespace is
stripped, an optional single sign is accepted, and the remainder must be a
nonempty run of decimal digits; anything else raises ValueError (none). -/
def pyIntOfString (s : String) : Option Int :=
  match (s.trim).data with
  | [] => none
  | '-' :: rest =>
      if rest ≠ [] ∧ rest.all Char.isDigit then some (-(digitsToNat rest : Int))
      else none
  | '+' :: rest =>
      if rest ≠ [] ∧ rest.all Char.isDigit then some ((digitsToNat rest : Int))
      else none
  | cs =>
      if cs.all Char.isDigit then some ((digitsToNat cs : Int)) else none

/-- Python str.strip applied with the single-character argument comma:
removes every leading and trailing comma. -/
def stripCommas (s : String) : String :=
  String.mk (((s.data.dropWhile (fun c => c = ',')).reverse.dropWhile
    (fun c => c = ',')).reverse)

/-! ## Rendering of datetime.timedelta

user_worktime and user_tasks format a millisecond total with
str(datetime.timedelta(seconds=int(duration) / 1000)).split(".")[0].
timedelta normalizes to (days, seconds, microseconds) with
0 <= seconds < 86400 and 0 <= microseconds < 1000000 (days absorbs the
sign, by floor division).  Both Python floor division and Euclidean
division agree for positive divisors, so Int.ediv/Int.emod are exact
models here.  The float division int(duration) / 1000 is exact to the
microsecond for every magnitude below 2^53 microseconds, which covers all
realistic durations; the embedding works in exact integer microseconds.
str(timedelta) prints D day(s) only when days is nonzero and a fractional
part only when microseconds is nonzero; the single dot character in the
rendering can only come from the fractional part, so split(".")[0] is
exactly the rendering without the fractional part. -/

/-- Zero-pad the decimal rendering of a natural number to width 2, as the
format %02d does for the minute and second fields. -/
def pad2 (n : Nat) : String :=
  if n < 10 then "0" ++ toString n else toString n

/-- Day count of the normalized timedelta for a total of us microseconds.
Lean division on Int is Euclidean, which for the positive divisor equals
the floor division of the Python divmod. -/
def tdDays (us : Int) : Int := us / 86400000000

/-- Second-of-day count (0 ≤ _ < 86400) of the normalized timedelta. -/
def tdSecs (us : Int) : Nat := (us % 86400000000).toNat / 1000000

/-- Microsecond remainder (0 ≤ _ < 1000000) of the normalized timedelta. -/
def tdMicro (us : Int) : Nat := (us % 86400000000).toNat % 1000000

/-- str(timedelta) with the fractional-seconds part removed, which is what
str(td).split(".")[0] evaluates to: H:MM:SS out of the second-of-day
count, prefixed with the day count when it is nonzero. -/
def timedeltaStrNoFrac (us : Int) : String :=
  if tdDays us = 0 then
    toString (tdSecs us / 60 / 60) ++ ":" ++ pad2 (tdSecs us / 60 % 60) ++ ":"
      ++ pad2 (tdSecs us % 60)
  else
    toString (tdDays us) ++ " day"
      ++ (if tdDays us = 1 ∨ tdDays us = -1 then "" else "s") ++ ", "
      ++ toString (tdSecs us / 60 / 60) ++ ":" ++ pad2 (tdSecs us / 60 % 60) ++ ":"
      ++ pad2 (tdSecs us % 60)

/-- Duration rendering used by user_worktime and user_tasks on a total of
ms milliseconds: str(datetime.timedelta(seconds=ms / 1000)).split(".")[0]. -/
def fmtDuration (ms : Int) : String := timedeltaStrNoFrac (ms * 1000)

/-- Rendering that follows the words of the specification: plain H:MM:SS
text of a nonnegative whole-second total, hours unbounded, truncated to
whole seconds.  This is the comparison point for the claim about duration
rendering; it is written from the spec, not from the source. -/
def specHMMSS (ms : Nat) : String :=
  let s := ms / 1000
  toString (s / 3600) ++ ":" ++ pad2 (s % 3600 / 60) ++ ":" ++ pad2 (s % 60)

/-! ## handlers.py -/

/-- check_boolean from src/clickup_api/handlers.py lines 43-47: returns the
value when it is a boolean and raises TypeError otherwise (in Python,
isinstance(1, bool) is false, so integers 0 and 1 are rejected). -/
def check_boolean (value : PyV) : Except PyErr Bool :=
  match value with
  | .vbool b => .ok b
  | v => .error (.typeError ("value must be of type: boolean, not "
      ++ pyTypeName v ++ "."))

/-- The wire coercion as used at the get_time_entries call sites
(src/clickup_api_oop/get_methods.py lines 698-711): the expression
"true" if check_boolean(value) else "false". -/
def boolean_to_wire (value : PyV) : Except PyErr String :=
  (check_boolean value).map (fun b => if b then "true" else "false")

/-- date_as_string_to_unix_time_in_milliseconds from handlers.py lines
70-79.  The delegate datetime_to_unix_time_in_milliseconds depends on the
local calendar and timezone, so it is passed in as a parameter dtToMs.
The source only converts truthy string arguments; any other argument falls
through both if statements and is returned unchanged. -/
def date_as_string_to_unix_time_in_milliseconds
    (dtToMs : List Int → Except PyErr Int) (date : PyV) : Except PyErr PyV :=
  if pyTruthy date then
    match date with
    | .vstr s =>
        let split_data := (s.splitOn ",").map String.trim
        match split_data.mapM pyIntOfString with
        | some string_to_int => (dtToMs string_to_int).map PyV.vint
        | none => .error (.valueError "invalid literal for int")
    | other => .ok other
  else .ok date

/-- check_and_adjust_list_length from handlers.py lines 82-109, restricted
to list arguments (the TypeError branch for non-list input is outside the
quantification of the claims).  The 8 characters drawn by random.choices
are passed in as the parameter sample.  Because data.append mutates the
argument of the caller in place and the function returns the same object,
the result is the pair (final contents of the argument object, returned
list); the two components are always equal. -/
def check_and_adjust_list_length (data : List PyAtom) (append_number : Bool)
    (sample : List Char) : List PyAtom × List PyAtom :=
  if data.isEmpty then (data, data)
  else if data.length = 1 then
    let random_value : PyAtom :=
      if append_number then .aint (digitsToNat sample) else .astr (String.mk sample)
    let d := data ++ [random_value]
    (d, d)
  else (data, data)

/-- split_string_array from handlers.py lines 112-126, restricted to list
arguments.  The split list is built fresh, so the argument object of the
caller is returned unmodified as the first component. -/
def split_string_array (data : List PyAtom) (sample : List Char) :
    Except PyErr (List PyAtom × List PyAtom) :=
  if data.isEmpty then .ok (data, data)
  else if data.length > 1 then .ok (data, data)
  else
    match data.head? with
    | some (.astr s) =>
        let split_data := ((s.splitOn ",").map (fun t => PyAtom.astr t.trim))
        if split_data.length = 1 then
          .ok (data, split_data ++ [.astr (String.mk sample)])
        else .ok (data, split_data)
    | _ => .error (.attributeError "object has no attribute split")

/-- Test used at the end of split_int_array: isinstance(data[0], int) and
not isinstance(data[0], bool). -/
def isIntNonBool : PyAtom → Bool
  | .aint _ => true
  | _ => false

/-- split_int_array from handlers.py lines 129-155, restricted to list
arguments.  When the single element is a string the comprehension rebinds
the local name data to a fresh list, so the append of the random filler
mutates the fresh list and the argument of the caller stays untouched;
when the single element is already an integer the rebinding never happens
and the append mutates the argument of the caller in place.  The first
component of the result is the final contents of the argument object. -/
def split_int_array (data : List PyAtom) (sample : List Char) :
    Except PyErr (List PyAtom × List PyAtom) :=
  if data.isEmpty then .ok (data, data)
  else if data.length ≠ 1 then
    .error (.valueError
      "The list must contain a single string element with numbers separated by commas.")
  else
    match data.head? with
    | some (.astr s) =>
        match (((stripCommas s).splitOn ",").map String.trim).mapM pyIntOfString with
        | some ints =>
            let fresh := ints.map PyAtom.aint
            if fresh.length = 1 ∧ (fresh.head?.map isIntNonBool).getD false then
              .ok (data, fresh ++ [.aint (digitsToNat sample)])
            else .ok (data, fresh)
        | none =>
            .error (.valueError
              "The list must contain a single string with numbers separated by commas.")
    | some v =>
        if isIntNonBool v then
          let d := data ++ [.aint (digitsToNat sample)]
          .ok (d, d)
        else .ok (data, data)
    | none => .ok (data, data)

/-! ## additional_methods.py: Stage 1 and Stage 2 of the aggregation -/

/-- request_workspace_ids from src/clickup_api_oop/additional_methods.py
lines 16-46.  The first parameter is the teams field of the
get_authorized_teams_workspaces response (the id of each authorized
workspace, as a Python value).  Note the branch condition is Python
truthiness, not an is-None test. -/
def request_workspace_ids (workspacesTeams : List PyAtom) (team_id : PyV) :
    Except PyErr (List PyAtom) :=
  if !pyTruthy team_id then
    if workspacesTeams.isEmpty then
      .error (.valueError "No teams (workspaces) found for a given token.")
    else .ok workspacesTeams
  else
    match team_id with
    | .vlist xs => .ok xs
    | .vtuple xs => .ok xs
    | other =>
        .error (.typeError ("team_id must be a list or a tuple, not "
          ++ pyTypeName other ++ "."))

/-- A response of get_time_entries, as inspected by the aggregation code:
hasData records whether the key data is present, and data holds its
contents (the page of results, of entry type α). -/
structure PageResponse (α : Type) where
  hasData : Bool
  data : List α
  deriving DecidableEq, Repr

/-- Loop body of request_time_entries_for_workspace_ids: one
get_time_entries request per workspace, strictly in list order, appending
each response that carries the data key and raising ReferenceError at the
first response that lacks it.  The first component of the result is the
trace of workspace ids actually requested. -/
def fetchLoop {α : Type} (fetch : PyAtom → PageResponse α) :
    List PyAtom → List PyAtom × Except PyErr (List (PageResponse α))
  | [] => ([], .ok [])
  | t :: ts =>
      let response := fetch t
      if response.hasData then
        let rest := fetchLoop fetch ts
        (t :: rest.1, rest.2.map (fun rs => response :: rs))
      else
        ([t], .error (.referenceError
          "Request to access teams failed - team not authorized."))

/-- request_time_entries_for_workspace_ids from additional_methods.py
lines 48-73 (the drifted copy in clickup_api.py raises ValueError instead
of AttributeError on an empty id list; both are outside the claims, which
quantify over non-empty lists). -/
def request_time_entries_for_workspace_ids {α : Type}
    (fetch : PyAtom → PageResponse α) (team_id : List PyAtom) :
    List PyAtom × Except PyErr (List (PageResponse α)) :=
  if team_id.isEmpty then
    ([], .error (.attributeError "team_id must be a list or a tuple with ID values."))
  else fetchLoop fetch team_id

/-! ## user_worktime (additional_methods.py lines 75-163) -/

/-- A time entry as consumed by user_worktime: the username of the owning
user, the duration in milliseconds (possibly negative for a running
timer), and the billable flag. -/
structure TimeEntry where
  username : String
  duration : Int
  billable : Bool
  deriving DecidableEq, Repr

/-- Membership test of a key in the accumulator dictionary (modelled as an
insertion-ordered association list, like a Python dict). -/
def keyMem (u : String) : List (String × Int) → Bool
  | [] => false
  | p :: rest => if p.1 = u then true else keyMem u rest

/-- In-place update duration_per_user[u] += d of the accumulator. -/
def mapAdd (u : String) (d : Int) (m : List (String × Int)) :
    List (String × Int) :=
  m.map (fun p => if p.1 = u then (p.1, p.2 + d) else p)

/-- One iteration of the accumulation loop of user_worktime (lines
136-156), with its four branches: key present or absent crossed with
only_billable set or not. -/
def worktimeStep (only_billable : Bool) (m : List (String × Int))
    (task : TimeEntry) : List (String × Int) :=
  if keyMem task.username m then
    if only_billable then
      mapAdd task.username (if task.billable then task.duration else 0) m
    else
      mapAdd task.username task.duration m
  else
    if only_billable then
      m ++ [(task.username, if task.billable then task.duration else 0)]
    else
      m ++ [(task.username, task.duration)]

/-- The accumulated per-user millisecond totals of user_worktime over the
fetched pages (response["data"] of each per-workspace response). -/
def user_worktime_raw (pages : List (List TimeEntry)) (only_billable : Bool) :
    List (String × Int) :=
  pages.foldl (fun m page => page.foldl (worktimeStep only_billable) m) []

/-- user_worktime: the accumulated totals with each value replaced by its
duration rendering (lines 158-163). -/
def user_worktime (pages : List (List TimeEntry)) (only_billable : Bool) :
    List (String × String) :=
  (user_worktime_raw pages only_billable).map (fun p => (p.1, fmtDuration p.2))

/-- Per-entry contribution as the specification words it: the duration of
the entry unless only_billable is set and the entry is not billable, in
which case zero.  Written from the spec for comparison with the
four-branch source loop. -/
def contribution (only_billable : Bool) (e : TimeEntry) : Int :=
  if only_billable && !e.billable then 0 else e.duration

/-- Single-rule upsert of the running-total map, as the specification
words it. -/
def upsert (m : List (String × Int)) (u : String) (d : Int) :
    List (String × Int) :=
  if keyMem u m then mapAdd u d m else m ++ [(u, d)]

/-- The fold exactly as the specification describes it: over every entry
of every page, keyed by username, adding the per-entry contribution. -/
def user_worktime_spec (pages : List (List TimeEntry)) (only_billable : Bool) :
    List (String × Int) :=
  pages.flatten.foldl (fun m e => upsert m e.username (contribution only_billable e)) []

/-! ## user_tasks (additional_methods.py lines 165-303) -/

/-- The task reference carried by a time entry. -/
structure TaskRef where
  id : String
  name : String
  custom_id : Option String
  deriving DecidableEq, Repr

/-- A time entry as consumed by user_tasks: the entry id, the referenced
task, the duration in milliseconds, and the optional custom_items id. -/
structure TaskTimeEntry where
  id : String
  task : TaskRef
  duration : Int
  custom_items : Option Int
  deriving DecidableEq, Repr

/-- A task record of the user_tasks result, with duration of type δ
(accumulated milliseconds during the fold, rendered text afterwards).
Lines 269-289 assign custom_id twice; the second assignment (from
custom_items) unconditionally overwrites the first, so the stored
custom_id is the custom_items id or None. -/
structure TaskRecord (δ : Type) where
  task_id : String
  custom_id : Option Int
  task_name : String
  duration : δ
  deriving DecidableEq, Repr

/-- The record appended for the first entry of a task id. -/
def mkTaskRecord (e : TaskTimeEntry) : TaskRecord Int :=
  ⟨e.task.id, e.custom_items, e.task.name, e.duration⟩

/-- Membership test of a task id in the task_ids bookkeeping list. -/
def strMem (u : String) : List String → Bool
  | [] => false
  | x :: xs => if x = u then true else strMem u xs

/-- The inner update of lines 261-264: every record whose task_id matches
gets the duration of the entry added. -/
def bumpDuration (k : String) (d : Int) (recs : List (TaskRecord Int)) :
    List (TaskRecord Int) :=
  recs.map (fun r => if r.task_id = k then { r with duration := r.duration + d } else r)

/-- One iteration of the folding loop of user_tasks (lines 257-290) over
the state (task_ids, tasks).  The task_entry_ids bookkeeping list is
dropped: it is only read by commented-out debug prints. -/
def tasksStep (st : List String × List (TaskRecord Int)) (e : TaskTimeEntry) :
    List String × List (TaskRecord Int) :=
  if strMem e.task.id st.1 then
    (st.1, bumpDuration e.task.id e.duration st.2)
  else
    (st.1 ++ [e.task.id], st.2 ++ [mkTaskRecord e])

/-- The folded task records of user_tasks over the fetched pages,
including the truthiness guard if response["data"] of line 256 (an empty
page is skipped; folding over it would be a no-op anyway). -/
def user_tasks_records (pages : List (List TaskTimeEntry)) :
    List (TaskRecord Int) :=
  (pages.foldl
    (fun st page => if page.isEmpty then st else page.foldl tasksStep st)
    ([], [])).2

/-- The tasks field of the user_tasks result: each accumulated duration
replaced by its rendering (lines 292-296). -/
def user_tasks_tasks (pages : List (List TaskTimeEntry)) :
    List (TaskRecord String) :=
  (user_tasks_records pages).map
    (fun r => ⟨r.task_id, r.custom_id, r.task_name, fmtDuration r.duration⟩)

/-- Sum of the durations of every entry with the given task id, over a
flat list of entries: the intended total of one task record. -/
def durSum (t : String) (es : List TaskTimeEntry) : Int :=
  ((es.filter (fun e => e.task.id = t)).map (fun e => e.duration)).sum

/-! ## user_tasks assignee resolution (additional_methods.py lines 210-229) -/

/-- A member entry of the members list of a workspace in the
get_authorized_teams_workspaces response. -/
structure Member where
  username : String
  id : Int
  deriving DecidableEq, Repr

/-- A workspace (team) of the get_authorized_teams_workspaces response. -/
structure Team where
  id : Int
  members : List Member
  deriving DecidableEq, Repr

/-- str.casefold of the usernames; on the ASCII usernames of the claims it
coincides with per-character lowercasing (written over the character list
so that it evaluates inside the kernel). -/
def pyCasefold (s : String) : String := String.mk (s.data.map Char.toLower)

/-- The resolution loop: for each team the flag is_user_in_workspace is
reset to False, then the members are scanned and the scan breaks at the
first member whose casefolded username matches, binding assignee and
setting the flag.  The state is (assignee, is_user_in_workspace), each
None while still unassigned. -/
def resolveLoop (username : String) (teams : List Team) :
    Option Int × Option Bool :=
  teams.foldl
    (fun acc team =>
      match team.members.find?
        (fun user => pyCasefold username = pyCasefold user.username) with
      | some user => (some user.id, some true)
      | none => (acc.1, some false))
    (none, none)

/-- The assignee resolution of user_tasks: run the loop, then raise
ValueError when the flag is false.  A still-unassigned local read is a
Python NameError (possible only when the teams list is empty, or for the
assignee when the flag logic were changed). -/
def user_tasks_resolve_assignee (teams : List Team) (username : String) :
    Except PyErr Int :=
  match resolveLoop username teams with
  | (_, none) => .error (.nameError "is_user_in_workspace")
  | (assignee, some flag) =>
      if flag then
        match assignee with
        | some a => .ok a
        | none => .error (.nameError "assignee")
      else
        .error (.valueError ("User " ++ username
          ++ " not found in workspace list of members."))

/-! ## Shared lemmas -/

lemma worktimeStep_eq_upsert (ob : Bool) (m : List (String × Int)) (e : TimeEntry) :
    worktimeStep ob m e = upsert m e.username (contribution ob e) := by
  unfold worktimeStep upsert contribution
  cases e.billable <;> cases ob <;> simp

lemma user_worktime_raw_eq_spec (pages : List (List TimeEntry)) (ob : Bool) :
    user_worktime_raw pages ob = user_worktime_spec pages ob := by
  unfold user_worktime_raw user_worktime_spec
  rw [List.foldl_flatten]
  have h : worktimeStep ob = fun m e => upsert m e.username (contribution ob e) :=
    funext fun m => funext fun e => worktimeStep_eq_upsert ob m e
  rw [h]

lemma split_string_array_cons_str (s : String) (sample : List Char) :
    split_string_array [.astr s] sample =
      (let split_data := (s.splitOn ",").map (fun t => PyAtom.astr t.trim)
       if split_data.length = 1 then
         .ok ([.astr s], split_data ++ [.astr (String.mk sample)])
       else .ok ([.astr s], split_data)) := rfl

lemma split_string_array_single (s : String) (sample : List Char) :
    ∃ res, split_string_array [.astr s] sample = .ok ([.astr s], res) := by
  rw [split_string_array_cons_str]
  by_cases h : ((s.splitOn ",").map (fun t => PyAtom.astr t.trim)).length = 1
  · exact ⟨_, by simp only [h, if_true]; rfl⟩
  · exact ⟨_, by simp only [h, if_false]; rfl⟩

lemma split_int_array_cons_str (s : String) (sample : List Char) :
    split_int_array [.astr s] sample =
      (match (((stripCommas s).splitOn ",").map String.trim).mapM pyIntOfString with
       | some ints =>
           let fresh := ints.map PyAtom.aint
           if fresh.length = 1 ∧ (fresh.head?.map isIntNonBool).getD false then
             .ok ([.astr s], fresh ++ [.aint (digitsToNat sample)])
           else .ok ([.astr s], fresh)
       | none =>
           .error (.valueError
             "The list must contain a single string with numbers separated by commas.")) := rfl

lemma split_int_array_single_str (s : String) (sample : List Char)
    (out : List PyAtom × List PyAtom)
    (hout : split_int_array [.astr s] sample = .ok out) : out.1 = [.astr s] := by
  rw [split_int_array_cons_str] at hout
  cases hmap : (((stripCommas s).splitOn ",").map String.trim).mapM pyIntOfString with
  | none =>
      rw [hmap] at hout
      simp at hout
  | some ints =>
      rw [hmap] at hout
      dsimp only at hout
      split at hout <;>
        (simp only [Except.ok.injEq] at hout; rw [← hout])

lemma strMem_iff (u : String) (l : List String) : strMem u l = true ↔ u ∈ l := by
  induction l with
  | nil => simp [strMem]
  | cons x xs ih =>
      unfold strMem
      split
      · rename_i h
        simp [h]
      · rename_i h
        simp only [List.mem_cons, ih]
        constructor
        · exact Or.inr
        · rintro (rfl | hm)
          · exact absurd rfl h
          · exact hm

lemma bump_task_id (k : String) (d : Int) (r : TaskRecord Int) :
    (if r.task_id = k then ({ r with duration := r.duration + d } : TaskRecord Int)
      else r).task_id = r.task_id := by
  split <;> rfl

lemma bumpDuration_map_task_id (k : String) (d : Int) (l : List (TaskRecord Int)) :
    (bumpDuration k d l).map (fun r => r.task_id) = l.map (fun r => r.task_id) := by
  unfold bumpDuration
  rw [List.map_map]
  exact List.map_congr_left (fun r _ => bump_task_id k d r)

/-- The running invariant of the user_tasks fold: the task_ids bookkeeping
list mirrors the task_id fields of the accumulated records and holds no
duplicates. -/
def InvT (st : List String × List (TaskRecord Int)) : Prop :=
  st.1 = st.2.map (fun r => r.task_id) ∧ st.1.Nodup

lemma tasksStep_inv (st : List String × List (TaskRecord Int))
    (e : TaskTimeEntry) (h : InvT st) : InvT (tasksStep st e) := by
  obtain ⟨h1, h2⟩ := h
  unfold tasksStep
  split
  · exact ⟨by rw [h1, bumpDuration_map_task_id], h2⟩
  · rename_i hmem
    have hnm : e.task.id ∉ st.1 := fun hin => hmem ((strMem_iff _ _).mpr hin)
    refine ⟨?_, ?_⟩
    · rw [List.map_append, ← h1]
      rfl
    · rw [List.nodup_append]
      exact ⟨h2, List.nodup_singleton _, by simpa [List.disjoint_singleton] using hnm⟩

lemma foldl_tasksStep_inv (es : List TaskTimeEntry)
    (st : List String × List (TaskRecord Int)) (h : InvT st) :
    InvT (es.foldl tasksStep st) := by
  induction es generalizing st with
  | nil => exact h
  | cons e es ih => exact ih _ (tasksStep_inv st e h)

/-- Sum of the durations of the records with the given task id (at most
one under the invariant). -/
def recSum (t : String) : List (TaskRecord Int) → Int
  | [] => 0
  | r :: l => (if r.task_id = t then r.duration else 0) + recSum t l

lemma recSum_append (t : String) (l1 l2 : List (TaskRecord Int)) :
    recSum t (l1 ++ l2) = recSum t l1 + recSum t l2 := by
  induction l1 with
  | nil => simp [recSum]
  | cons a l ih =>
      have h1 : recSum t ((a :: l) ++ l2)
          = (if a.task_id = t then a.duration else 0) + recSum t (l ++ l2) := rfl
      have h2 : recSum t (a :: l)
          = (if a.task_id = t then a.duration else 0) + recSum t l := rfl
      rw [h1, ih, h2]
      ring

lemma bump_not_mem (k : String) (d : Int) (l : List (TaskRecord Int))
    (h : k ∉ l.map (fun r => r.task_id)) : bumpDuration k d l = l := by
  unfold bumpDuration
  induction l with
  | nil => rfl
  | cons a l ih =>
      simp only [List.map_cons, List.mem_cons, not_or] at h
      simp only [List.map_cons]
      rw [if_neg (fun hh => h.1 hh.symm), ih h.2]

lemma recSum_bump (t k : String) (d : Int) (l : List (TaskRecord Int))
    (hnd : (l.map (fun r => r.task_id)).Nodup)
    (hmem : k ∈ l.map (fun r => r.task_id)) :
    recSum t (bumpDuration k d l) = recSum t l + (if k = t then d else 0) := by
  induction l with
  | nil => simp at hmem
  | cons a l ih =>
      simp only [List.map_cons, List.nodup_cons] at hnd
      simp only [List.map_cons, List.mem_cons] at hmem
      have hbump : bumpDuration k d (a :: l)
          = (if a.task_id = k then { a with duration := a.duration + d } else a)
            :: bumpDuration k d l := rfl
      rw [hbump]
      by_cases hak : a.task_id = k
      · have hknl : k ∉ l.map (fun r => r.task_id) := hak ▸ hnd.1
        rw [if_pos hak, bump_not_mem k d l hknl]
        simp only [recSum, hak]
        by_cases hkt : k = t
        · simp only [if_pos hkt]
          ring
        · simp only [if_neg hkt]
          ring
      · have hkl : k ∈ l.map (fun r => r.task_id) := by
          rcases hmem with h | h
          · exact absurd h.symm hak
          · exact h
        rw [if_neg hak]
        simp only [recSum, ih hnd.2 hkl]
        ring

lemma recSum_zero_of_not_mem (t : String) (l : List (TaskRecord Int))
    (h : t ∉ l.map (fun r => r.task_id)) : recSum t l = 0 := by
  induction l with
  | nil => rfl
  | cons a l ih =>
      simp only [List.map_cons, List.mem_cons, not_or] at h
      have hne : a.task_id ≠ t := fun hh => h.1 hh.symm
      simp only [recSum, if_neg hne, ih h.2]
      ring

lemma mem_duration_eq_recSum (recs : List (TaskRecord Int)) (r : TaskRecord Int)
    (hnd : (recs.map (fun x => x.task_id)).Nodup) (hr : r ∈ recs) :
    r.duration = recSum r.task_id recs := by
  induction recs with
  | nil => simp at hr
  | cons a l ih =>
      simp only [List.map_cons, List.nodup_cons] at hnd
      rcases List.mem_cons.mp hr with rfl | hr
      · have : recSum r.task_id l = 0 := recSum_zero_of_not_mem _ _ hnd.1
        simp [recSum, this]
      · have hne : a.task_id ≠ r.task_id := by
          intro hh
          exact hnd.1 (hh ▸ List.mem_map.mpr ⟨r, hr, rfl⟩)
        simp only [recSum, if_neg hne, ih hnd.2 hr]
        ring

lemma durSum_cons (t : String) (e : TaskTimeEntry) (es : List TaskTimeEntry) :
    durSum t (e :: es) = (if e.task.id = t then e.duration else 0) + durSum t es := by
  unfold durSum
  by_cases h : e.task.id = t
  · simp [List.filter_cons, h]
  · simp [List.filter_cons, h]

lemma tasksStep_recSum (st : List String × List (TaskRecord Int))
    (e : TaskTimeEntry) (t : String) (h : InvT st) :
    recSum t (tasksStep st e).2
      = recSum t st.2 + (if e.task.id = t then e.duration else 0) := by
  obtain ⟨h1, h2⟩ := h
  unfold tasksStep
  split
  · rename_i hmem
    have hin : e.task.id ∈ st.2.map (fun r => r.task_id) :=
      h1 ▸ (strMem_iff _ _).mp hmem
    have hnd : (st.2.map (fun r => r.task_id)).Nodup := h1 ▸ h2
    exact recSum_bump t e.task.id e.duration st.2 hnd hin
  · rw [recSum_append]
    simp [recSum, mkTaskRecord]

lemma foldl_tasksStep_recSum (es : List TaskTimeEntry)
    (st : List String × List (TaskRecord Int)) (t : String) (h : InvT st) :
    recSum t (es.foldl tasksStep st).2 = recSum t st.2 + durSum t es := by
  induction es generalizing st with
  | nil => simp [durSum]
  | cons e es ih =>
      rw [List.foldl_cons, ih _ (tasksStep_inv st e h),
        tasksStep_recSum st e t h, durSum_cons]
      ring

lemma tasksStep_ids_prefix (st : List String × List (TaskRecord Int))
    (e : TaskTimeEntry) : ∃ tail, (tasksStep st e).1 = st.1 ++ tail := by
  unfold tasksStep
  split
  · exact ⟨[], by simp⟩
  · exact ⟨[e.task.id], rfl⟩

lemma foldl_tasksStep_ids_prefix (es : List TaskTimeEntry)
    (st : List String × List (TaskRecord Int)) :
    ∃ tail, (es.foldl tasksStep st).1 = st.1 ++ tail := by
  induction es generalizing st with
  | nil => exact ⟨[], by simp⟩
  | cons e es ih =>
      obtain ⟨t1, h1⟩ := tasksStep_ids_prefix st e
      obtain ⟨t2, h2⟩ := ih (tasksStep st e)
      exact ⟨t1 ++ t2, by rw [List.foldl_cons, h2, h1, List.append_assoc]⟩

lemma mem_foldl_tasksStep_ids (es : List TaskTimeEntry)
    (st : List String × List (TaskRecord Int)) (e : TaskTimeEntry)
    (he : e ∈ es) : e.task.id ∈ (es.foldl tasksStep st).1 := by
  induction es generalizing st with
  | nil => simp at he
  | cons a es ih =>
      rw [List.foldl_cons]
      rcases List.mem_cons.mp he with rfl | he
      · have hstep : e.task.id ∈ (tasksStep st e).1 := by
          unfold tasksStep
          split
          · rename_i hmem
            exact (strMem_iff _ _).mp hmem
          · exact List.mem_append_right _ (by simp)
        obtain ⟨tail, htail⟩ := foldl_tasksStep_ids_prefix es (tasksStep st e)
        rw [htail]
        exact List.mem_append_left _ hstep
      · exact ih (tasksStep st a) he

lemma user_tasks_records_eq_flatten (pages : List (List TaskTimeEntry)) :
    user_tasks_records pages = (pages.flatten.foldl tasksStep ([], [])).2 := by
  unfold user_tasks_records
  congr 1
  generalize ([], []) = st0
  induction pages generalizing st0 with
  | nil => rfl
  | cons p ps ih =>
      rw [List.foldl_cons, List.flatten_cons, List.foldl_append]
      by_cases hp : p.isEmpty
      · rw [if_pos hp, List.isEmpty_iff.mp hp]
        exact ih st0
      · rw [if_neg hp]
        exact ih _

lemma char_digit_bound (c : Char) (h : c.isDigit = true) : c.toNat - 48 ≤ 9 := by
  simp [Char.isDigit] at h
  obtain ⟨h1, h2⟩ := h
  have h3 : c.val.toNat ≤ 57 := h2
  simp [Char.toNat]
  omega

lemma digitsToNat_lt (cs : List Char) (h : cs.all Char.isDigit = true) :
    digitsToNat cs < 10 ^ cs.length := by
  induction cs with
  | nil => simp [digitsToNat]
  | cons c cs ih =>
      simp only [List.all_cons, Bool.and_eq_true] at h
      have hc : c.toNat - 48 ≤ 9 := char_digit_bound c h.1
      have hrest := ih h.2
      have hp : 0 < 10 ^ cs.length := Nat.pos_pow_of_pos _ (by norm_num)
      simp only [digitsToNat, List.length_cons, pow_succ]
      nlinarith

lemma check_and_adjust_single (x : PyAtom) (flag : Bool) (sample : List Char) :
    check_and_adjust_list_length [x] flag sample
      = ([x, if flag then .aint (digitsToNat sample) else .astr (String.mk sample)],
         [x, if flag then .aint (digitsToNat sample) else .astr (String.mk sample)]) := rfl

lemma check_and_adjust_len_ne_one (l : List PyAtom) (flag : Bool)
    (sample : List Char) (hl : l.length ≠ 1) :
    check_and_adjust_list_length l flag sample = (l, l) := by
  unfold check_and_adjust_list_length
  rcases l with _ | ⟨a, t⟩
  · simp
  · rcases t with _ | ⟨b, t2⟩
    · exact absurd rfl hl
    · simp

lemma fmtDuration_eq_specHMMSS (ms : Int) (h0 : 0 ≤ ms) (h1 : ms < 86400000) :
    fmtDuration ms = specHMMSS ms.toNat := by
  obtain ⟨n, rfl⟩ : ∃ n : Nat, ms = (n : Int) :=
    ⟨ms.toNat, (Int.toNat_of_nonneg h0).symm⟩
  have hn : n < 86400000 := by exact_mod_cast h1
  unfold fmtDuration timedeltaStrNoFrac tdDays tdSecs specHMMSS
  have hus : ((n : Int) * 1000) = ((n * 1000 : Nat) : Int) := by push_cast; ring
  have hlt : ((n * 1000 : Nat) : Int) < 86400000000 := by
    exact_mod_cast (by omega : n * 1000 < 86400000000)
  have hge : (0 : Int) ≤ ((n * 1000 : Nat) : Int) := by positivity
  rw [hus, Int.ediv_eq_zero_of_lt hge hlt, Int.emod_eq_of_lt hge hlt,
    Int.toNat_natCast, Int.toNat_natCast, if_pos rfl]
  have e1 : n * 1000 / 1000000 = n / 1000 := by omega
  have e2 : n / 1000 / 60 / 60 = n / 1000 / 3600 := by omega
  have e3 : n / 1000 / 60 % 60 = n / 1000 % 3600 / 60 := by omega
  rw [e1, e2, e3]

lemma fetchLoop_all_ok {α : Type} (fetch : PyAtom → PageResponse α)
    (ts : List PyAtom) (hall : ∀ t ∈ ts, (fetch t).hasData = true) :
    fetchLoop fetch ts = (ts, .ok (ts.map fetch)) := by
  induction ts with
  | nil => rfl
  | cons t ts ih =>
      have ht : (fetch t).hasData = true := hall t (by simp)
      have hrest := ih (fun x hx => hall x (by simp [hx]))
      unfold fetchLoop
      dsimp only
      rw [ht]
      simp [hrest, Except.map]

lemma fetchLoop_first_bad {α : Type} (fetch : PyAtom → PageResponse α)
    (pre : List PyAtom) (bad : PyAtom) (post : List PyAtom)
    (hpre : ∀ t ∈ pre, (fetch t).hasData = true)
    (hbad : (fetch bad).hasData = false) :
    fetchLoop fetch (pre ++ bad :: post)
      = (pre ++ [bad],
         .error (.referenceError
           "Request to access teams failed - team not authorized.")) := by
  induction pre with
  | nil =>
      rw [List.nil_append]
      unfold fetchLoop
      dsimp only
      rw [hbad]
      simp
  | cons t pre ih =>
      have ht : (fetch t).hasData = true := hpre t (by simp)
      have hrest := ih (fun x hx => hpre x (by simp [hx]))
      rw [List.cons_append]
      unfold fetchLoop
      dsimp only
      rw [ht]
      simp [hrest, Except.map]

/-! ## Claim theorems -/

/-- C1 (amended): with two fetched pages each containing one entry for
alice of 3,600,000 ms billable, user_worktime with only_billable=false
maps alice to "2:00:00" (the two page entries are summed), and after
adding a third 1,800,000 ms non-billable entry, only_billable=true still
returns alice ↦ "2:00:00"; and the accumulation is exactly the fold that
keys a running-total map by username and adds each entry contribution
(the duration, or zero when only_billable is set and the entry is not
billable). -/
theorem user_worktime_fold_claim :
    (∀ (pages : List (List TimeEntry)) (only_billable : Bool),
      user_worktime_raw pages only_billable = user_worktime_spec pages only_billable)
    ∧ user_worktime [[⟨"alice", 3600000, true⟩], [⟨"alice", 3600000, true⟩]] false
        = [("alice", "2:00:00")]
    ∧ user_worktime
        [[⟨"alice", 3600000, true⟩], [⟨"alice", 3600000, true⟩],
          [⟨"alice", 1800000, false⟩]] true
        = [("alice", "2:00:00")] :=
  ⟨user_worktime_raw_eq_spec, by decide, by decide⟩

/-- C1 counterexample: on the two pages of the claimed scenario the result
maps alice to "2:00:00", not to "1:00:00" as the claim states (each page
contributes one hour and the fold sums them). -/
theorem user_worktime_scenario_cex :
    user_worktime [[⟨"alice", 3600000, true⟩], [⟨"alice", 3600000, true⟩]] false
      = [("alice", "2:00:00")]
    ∧ user_worktime [[⟨"alice", 3600000, true⟩], [⟨"alice", 3600000, true⟩]] false
      ≠ [("alice", "1:00:00")] := by decide

/-- C2: the user_tasks fold keys records by task id: the resulting task
list holds pairwise distinct task ids, every entry task id is represented
by a record, and each record carries (the rendering of) the sum of the
durations of every entry with its task id - so a later entry with an
already-seen task id adds to the existing record instead of creating a
duplicate.  In particular two entries for task t9 of 600,000 ms and
900,000 ms produce exactly one record, with duration "0:25:00". -/
theorem user_tasks_fold_claim (pages : List (List TaskTimeEntry)) :
    ((user_tasks_records pages).map (fun r => r.task_id)).Nodup
    ∧ (∀ e ∈ pages.flatten,
        ∃ r, r ∈ user_tasks_records pages ∧ r.task_id = e.task.id)
    ∧ (∀ r ∈ user_tasks_records pages,
        r.duration = durSum r.task_id pages.flatten)
    ∧ (∀ r ∈ user_tasks_tasks pages,
        r.duration = fmtDuration (durSum r.task_id pages.flatten))
    ∧ user_tasks_tasks [[⟨"te1", ⟨"t9", "fix", none⟩, 600000, none⟩,
        ⟨"te2", ⟨"t9", "fix", none⟩, 900000, none⟩]]
      = [⟨"t9", none, "fix", "0:25:00"⟩] := by
  have hrec := user_tasks_records_eq_flatten pages
  have hInv : InvT (pages.flatten.foldl tasksStep ([], [])) :=
    foldl_tasksStep_inv _ _ ⟨rfl, List.nodup_nil⟩
  have hnodup : ((user_tasks_records pages).map (fun r => r.task_id)).Nodup := by
    rw [hrec, ← hInv.1]
    exact hInv.2
  have hdur : ∀ r ∈ user_tasks_records pages,
      r.duration = durSum r.task_id pages.flatten := by
    intro r hr
    rw [hrec] at hr
    have h1 := mem_duration_eq_recSum _ r (by rw [← hInv.1]; exact hInv.2) hr
    have h2 := foldl_tasksStep_recSum pages.flatten ([], []) r.task_id
      ⟨rfl, List.nodup_nil⟩
    rw [h1, h2]
    simp [recSum]
  refine ⟨hnodup, ?_, hdur, ?_, by decide⟩
  · intro e he
    have hid := mem_foldl_tasksStep_ids pages.flatten ([], []) e he
    rw [hInv.1] at hid
    obtain ⟨r, hr, hrid⟩ := List.mem_map.mp hid
    exact ⟨r, by rw [hrec]; exact hr, hrid⟩
  · intro r hr
    unfold user_tasks_tasks at hr
    obtain ⟨rec, hrecm, heq⟩ := List.mem_map.mp hr
    rw [← heq]
    exact congrArg fmtDuration (hdur rec hrecm)

/-- C2 witness: the two-entry single-task scenario, with distinctness and
coverage read off from the theorem at that input. -/
theorem user_tasks_fold_claim_witness :
    ((user_tasks_records [[⟨"te1", ⟨"t9", "fix", none⟩, 600000, none⟩,
        ⟨"te2", ⟨"t9", "fix", none⟩, 900000, none⟩]]).map
          (fun r => r.task_id)).Nodup
    ∧ (∃ r, r ∈ user_tasks_records [[⟨"te1", ⟨"t9", "fix", none⟩, 600000, none⟩,
        ⟨"te2", ⟨"t9", "fix", none⟩, 900000, none⟩]] ∧ r.task_id = "t9")
    ∧ user_tasks_tasks [[⟨"te1", ⟨"t9", "fix", none⟩, 600000, none⟩,
        ⟨"te2", ⟨"t9", "fix", none⟩, 900000, none⟩]]
      = [⟨"t9", none, "fix", "0:25:00"⟩] := by
  have h := user_tasks_fold_claim [[⟨"te1", ⟨"t9", "fix", none⟩, 600000, none⟩,
    ⟨"te2", ⟨"t9", "fix", none⟩, 900000, none⟩]]
  exact ⟨h.1, h.2.1 ⟨"te1", ⟨"t9", "fix", none⟩, 600000, none⟩ (by decide),
    h.2.2.2.2⟩

/-- C3: the flag is_user_in_workspace is reset to False at the top of each
team iteration, so after the loop it only reflects the last authorized
workspace.  With two workspaces where alice is a member of the first but
not the second, a matching member exists yet the not-found ValueError is
still raised, contradicting the claimed raise-iff-no-member-matches
behavior; with a single workspace the resolution works, and matching is
case-insensitive. -/
theorem user_tasks_resolution_flag_bug :
    (∃ t ∈ [Team.mk 1 [Member.mk "alice" 7], Team.mk 2 [Member.mk "bob" 8]],
      ∃ m ∈ t.members, pyCasefold m.username = pyCasefold "alice")
    ∧ user_tasks_resolve_assignee
        [Team.mk 1 [Member.mk "alice" 7], Team.mk 2 [Member.mk "bob" 8]] "alice"
      = .error (.valueError "User alice not found in workspace list of members.")
    ∧ user_tasks_resolve_assignee [Team.mk 1 [Member.mk "alice" 7]] "ALICE" = .ok 7
    ∧ user_tasks_resolve_assignee [Team.mk 1 [Member.mk "bob" 8]] "alice"
      = .error (.valueError "User alice not found in workspace list of members.") := by
  decide

/-- C4: for every non-empty resolved workspace id list, Stage 2 issues one
get_time_entries request per workspace id strictly sequentially in list
order (the trace of requested ids is the list itself); when every
response carries the data key the result is the list of all per-workspace
responses in order, and when the list decomposes as good ids followed by
a first id whose response lacks the data key, the loop stops right there
(the trace ends at the bad id, nothing after it is requested) and the
whole aggregation aborts with the ReferenceError - no skip-and-continue,
no partial result. -/
theorem request_time_entries_fail_fast {α : Type}
    (fetch : PyAtom → PageResponse α) (team_id : List PyAtom)
    (hne : team_id ≠ []) :
    ((∀ t ∈ team_id, (fetch t).hasData = true) →
      request_time_entries_for_workspace_ids fetch team_id
        = (team_id, .ok (team_id.map fetch)))
    ∧ (∀ pre bad post, team_id = pre ++ bad :: post →
        (∀ t ∈ pre, (fetch t).hasData = true) → (fetch bad).hasData = false →
        request_time_entries_for_workspace_ids fetch team_id
          = (pre ++ [bad],
             .error (.referenceError
               "Request to access teams failed - team not authorized."))) := by
  constructor
  · intro hall
    unfold request_time_entries_for_workspace_ids
    rw [if_neg (by simpa [List.isEmpty_iff] using hne)]
    exact fetchLoop_all_ok fetch team_id hall
  · intro pre bad post hdec hpre hbad
    unfold request_time_entries_for_workspace_ids
    rw [if_neg (by simpa [List.isEmpty_iff] using hne), hdec]
    exact fetchLoop_first_bad fetch pre bad post hpre hbad

/-- C4 witness: a two-workspace all-good run returns both responses in
order, and a run whose second workspace response lacks the data key
aborts right after requesting it. -/
theorem request_time_entries_fail_fast_witness :
    (request_time_entries_for_workspace_ids
        (fun t => if t = .aint 2 then (⟨false, []⟩ : PageResponse TimeEntry)
          else ⟨true, []⟩)
        [.aint 1, .aint 3]
      = ([.aint 1, .aint 3], .ok [⟨true, []⟩, ⟨true, []⟩]))
    ∧ (request_time_entries_for_workspace_ids
        (fun t => if t = .aint 2 then (⟨false, []⟩ : PageResponse TimeEntry)
          else ⟨true, []⟩)
        [.aint 1, .aint 2, .aint 3]
      = ([.aint 1, .aint 2],
         .error (.referenceError
           "Request to access teams failed - team not authorized."))) := by
  constructor
  · exact (request_time_entries_fail_fast _ [.aint 1, .aint 3] (by simp)).1
      (by decide)
  · exact (request_time_entries_fail_fast _ [.aint 1, .aint 2, .aint 3]
      (by simp)).2 [.aint 1] (.aint 2) [.aint 3] rfl (by decide) (by decide)

/-- C5 (amended): request_workspace_ids branches on Python truthiness, not
on is-None: every falsy argument (None, empty list/tuple, 0, empty
string, False) takes the endpoint path, raising the not-found ValueError
exactly when the authorized-workspaces response holds zero workspaces and
otherwise returning every workspace id of the response; a truthy
list/tuple is returned verbatim without validation; and every other
truthy argument raises a TypeError naming the bad type. -/
theorem request_workspace_ids_amended (resp : List PyAtom) (arg : PyV) :
    (pyTruthy arg = false → resp = [] →
      request_workspace_ids resp arg
        = .error (.valueError "No teams (workspaces) found for a given token."))
    ∧ (pyTruthy arg = false → resp ≠ [] → request_workspace_ids resp arg = .ok resp)
    ∧ (∀ xs, xs ≠ [] → request_workspace_ids resp (.vlist xs) = .ok xs)
    ∧ (∀ xs, xs ≠ [] → request_workspace_ids resp (.vtuple xs) = .ok xs)
    ∧ (pyTruthy arg = true → (∀ xs, arg ≠ .vlist xs) → (∀ xs, arg ≠ .vtuple xs) →
        request_workspace_ids resp arg
          = .error (.typeError ("team_id must be a list or a tuple, not "
              ++ pyTypeName arg ++ "."))) := by
  refine ⟨?_, ?_, ?_, ?_, ?_⟩
  · intro hf hr
    simp [request_workspace_ids, hf, hr]
  · intro hf hr
    simp [request_workspace_ids, hf, hr]
  · intro xs hxs
    simp [request_workspace_ids, pyTruthy, hxs]
  · intro xs hxs
    simp [request_workspace_ids, pyTruthy, hxs]
  · intro ht hl htl
    cases arg with
    | vlist xs => exact absurd rfl (hl xs)
    | vtuple xs => exact absurd rfl (htl xs)
    | vnone => simp [pyTruthy] at ht
    | vbool b => cases b <;> simp_all [request_workspace_ids, pyTruthy]
    | vint n => simp_all [request_workspace_ids, pyTruthy]
    | vstr s => simp_all [request_workspace_ids, pyTruthy]

/-- C5 witness: the amended branches at concrete inputs. -/
theorem request_workspace_ids_amended_witness :
    request_workspace_ids [] PyV.vnone
      = .error (.valueError "No teams (workspaces) found for a given token.")
    ∧ request_workspace_ids [.aint 1] PyV.vnone = .ok [.aint 1]
    ∧ request_workspace_ids [.aint 1] (.vlist [.aint 9]) = .ok [.aint 9]
    ∧ request_workspace_ids [.aint 1] (.vtuple [.aint 9]) = .ok [.aint 9]
    ∧ request_workspace_ids [.aint 1] (.vint 5)
      = .error (.typeError "team_id must be a list or a tuple, not <class int>.") := by
  refine ⟨(request_workspace_ids_amended [] PyV.vnone).1 (by decide) rfl,
    (request_workspace_ids_amended [.aint 1] PyV.vnone).2.1 (by decide) (by decide),
    (request_workspace_ids_amended [.aint 1] (.vlist [.aint 9])).2.2.1 [.aint 9] (by decide),
    (request_workspace_ids_amended [.aint 1] (.vtuple [.aint 9])).2.2.2.1 [.aint 9] (by decide),
    (request_workspace_ids_amended [.aint 1] (.vint 5)).2.2.2.2 (by decide)
      (fun xs => by simp) (fun xs => by simp)⟩

/-- C5 counterexample: an empty list is a list, yet it is not returned
verbatim: it is falsy, so the endpoint path runs and returns the
workspace ids of the response; likewise the falsy non-list 0 does not
raise the claimed TypeError. -/
theorem request_workspace_ids_cex :
    request_workspace_ids [.aint 1, .aint 2] (.vlist []) = .ok [.aint 1, .aint 2]
    ∧ request_workspace_ids [.aint 1, .aint 2] (.vlist []) ≠ .ok []
    ∧ request_workspace_ids [.aint 1, .aint 2] (.vint 0) = .ok [.aint 1, .aint 2] := by
  decide

/-- C6: for every one-element list [x], the returned list has length 2
with x preserved unchanged as the first element; the appended filler is
the integer read from the 8 sampled digit characters (hence below 10^8)
when the numeric flag is set, and otherwise the 8-character string built
from the sampled alphanumeric characters; and every list of length 0 or
at least 2 is returned unchanged. -/
theorem check_and_adjust_list_length_claim (x : PyAtom) (flag : Bool)
    (sample : List Char) (l : List PyAtom) (hlen : sample.length = 8) :
    ((check_and_adjust_list_length [x] flag sample).2.length = 2
     ∧ (check_and_adjust_list_length [x] flag sample).2.head? = some x
     ∧ (flag = true → sample.all Char.isDigit = true →
         (check_and_adjust_list_length [x] flag sample).2.getLast?
           = some (.aint (digitsToNat sample))
         ∧ digitsToNat sample < 100000000)
     ∧ (flag = false →
         (check_and_adjust_list_length [x] flag sample).2.getLast?
           = some (.astr (String.mk sample))
         ∧ (String.mk sample).length = 8))
    ∧ (l.length ≠ 1 → (check_and_adjust_list_length l flag sample).2 = l) := by
  refine ⟨⟨?_, ?_, ?_, ?_⟩, ?_⟩
  · rw [check_and_adjust_single]
    rfl
  · rw [check_and_adjust_single]
    rfl
  · intro hf hd
    rw [check_and_adjust_single]
    refine ⟨by simp [hf], ?_⟩
    have := digitsToNat_lt sample hd
    rw [hlen] at this
    exact this
  · intro hf
    rw [check_and_adjust_single]
    exact ⟨by simp [hf], by simpa using hlen⟩
  · intro hl
    rw [check_and_adjust_len_ne_one l flag sample hl]

/-- C6 witness: padding of a one-element list with the numeric and with
the string filler, and identity on an empty and a two-element list, at
concrete sampled characters. -/
theorem check_and_adjust_list_length_claim_witness :
    (check_and_adjust_list_length [.astr "abc"] true "02345678".data).2.length = 2
    ∧ (check_and_adjust_list_length [.astr "abc"] true "02345678".data).2.head?
      = some (.astr "abc")
    ∧ ((check_and_adjust_list_length [.astr "abc"] true "02345678".data).2.getLast?
        = some (.aint (digitsToNat "02345678".data))
       ∧ digitsToNat "02345678".data < 100000000)
    ∧ ((check_and_adjust_list_length [.aint 3] false "Abc1wxyz".data).2.getLast?
        = some (.astr (String.mk "Abc1wxyz".data))
       ∧ (String.mk "Abc1wxyz".data).length = 8)
    ∧ (check_and_adjust_list_length [.aint 1, .aint 2] true "02345678".data).2
      = [.aint 1, .aint 2] := by
  have h1 := check_and_adjust_list_length_claim (.astr "abc") true "02345678".data
    [.aint 1, .aint 2] (by decide)
  have h2 := check_and_adjust_list_length_claim (.aint 3) false "Abc1wxyz".data
    [] (by decide)
  exact ⟨h1.1.1, h1.1.2.1, h1.1.2.2.1 rfl (by decide), h2.1.2.2.2 rfl,
    h1.2 (by decide)⟩

/-- C8 (amended): every value of the user_worktime result and every task
duration of the user_tasks result is the rendering fmtDuration of the
accumulated millisecond total, and that rendering is plain H:MM:SS text
truncated to whole seconds exactly for totals of at least zero and below
24 hours; totals of 24 hours or more and negative totals instead carry
the day-count prefix of the Python str(timedelta) normalization. -/
theorem duration_rendering_amended
    (pages : List (List TimeEntry)) (ob : Bool) (u out : String)
    (pages2 : List (List TaskTimeEntry)) (r : TaskRecord String) :
    (∀ ms : Int, 0 ≤ ms → ms < 86400000 → fmtDuration ms = specHMMSS ms.toNat)
    ∧ ((u, out) ∈ user_worktime pages ob →
        ∃ d : Int, (u, d) ∈ user_worktime_raw pages ob ∧ out = fmtDuration d)
    ∧ (r ∈ user_tasks_tasks pages2 →
        ∃ rec, rec ∈ user_tasks_records pages2 ∧ r.task_id = rec.task_id
          ∧ r.duration = fmtDuration rec.duration) := by
  refine ⟨fun ms h0 h1 => fmtDuration_eq_specHMMSS ms h0 h1, ?_, ?_⟩
  · intro hm
    unfold user_worktime at hm
    obtain ⟨p, hp, he⟩ := List.mem_map.mp hm
    obtain ⟨he1, he2⟩ := Prod.mk.injEq .. ▸ he
    refine ⟨p.2, ?_, he2.symm⟩
    rw [← he1]
    exact hp
  · intro hm
    unfold user_tasks_tasks at hm
    obtain ⟨rec, hrec, he⟩ := List.mem_map.mp hm
    exact ⟨rec, hrec, by rw [← he], by rw [← he]⟩

/-- C8 witness: a one-hour total renders as its plain H:MM:SS truncation,
and each rendered value of a concrete user_worktime and user_tasks run is
the rendering of its accumulated total. -/
theorem duration_rendering_amended_witness :
    fmtDuration 3600500 = specHMMSS ((3600500 : Int).toNat)
    ∧ (∃ d : Int, ("alice", d) ∈ user_worktime_raw [[⟨"alice", 3600000, true⟩]] false
        ∧ "1:00:00" = fmtDuration d)
    ∧ (∃ rec, rec ∈ user_tasks_records [[⟨"te1", ⟨"t9", "fix", none⟩, 600000, none⟩]]
        ∧ ("t9" : String) = rec.task_id ∧ "0:10:00" = fmtDuration rec.duration) := by
  have h := duration_rendering_amended [[⟨"alice", 3600000, true⟩]] false
    "alice" "1:00:00" [[⟨"te1", ⟨"t9", "fix", none⟩, 600000, none⟩]]
    ⟨"t9", none, "fix", "0:10:00"⟩
  exact ⟨h.1 3600500 (by norm_num) (by norm_num), h.2.1 (by decide),
    h.2.2 (by decide)⟩

/-- C8 counterexample: a reachable accumulated total of 25 hours is
rendered as "1 day, 1:00:00", not as the H:MM:SS text "25:00:00" the
claim asserts, and a reachable negative total (running timer) is rendered
with a negative day prefix. -/
theorem duration_rendering_cex :
    user_worktime [[⟨"bob", 90000000, true⟩]] false = [("bob", "1 day, 1:00:00")]
    ∧ specHMMSS 90000000 = "25:00:00"
    ∧ user_worktime [[⟨"bob", 90000000, true⟩]] false ≠ [("bob", "25:00:00")]
    ∧ user_worktime [[⟨"bob", -1800000, true⟩]] false
      = [("bob", "-1 day, 23:30:00")] := by
  decide

/-- C7: for every truthy non-string argument,
date_as_string_to_unix_time_in_milliseconds silently returns the argument
unchanged instead of raising the TypeError that the claim (and the test
test_handlers.py line 149, whose assertion is itself inert because
assertEqual is called with a single argument) expects; in particular a
one-element list holding a valid date string is passed through, not
rejected. -/
theorem date_string_nonstring_passthrough
    (dtToMs : List Int → Except PyErr Int) (v : PyV)
    (htruthy : pyTruthy v = true) (hnotstr : ∀ s, v ≠ .vstr s) :
    date_as_string_to_unix_time_in_milliseconds dtToMs v = .ok v := by
  cases v with
  | vstr s => exact absurd rfl (hnotstr s)
  | vnone => simp [pyTruthy] at htruthy
  | vbool b => simp [date_as_string_to_unix_time_in_milliseconds, htruthy]
  | vint n => simp [date_as_string_to_unix_time_in_milliseconds, htruthy]
  | vlist xs => simp [date_as_string_to_unix_time_in_milliseconds, htruthy]
  | vtuple xs => simp [date_as_string_to_unix_time_in_milliseconds, htruthy]

/-- C7 witness: the single-element list holding a valid comma-separated
date string is returned unchanged (no type error), under an arbitrary
concrete date delegate. -/
theorem date_string_nonstring_passthrough_witness :
    pyTruthy (.vlist [.astr "2024, 7, 7, 7, 55"]) = true
    ∧ date_as_string_to_unix_time_in_milliseconds (fun _ => .ok 0)
        (.vlist [.astr "2024, 7, 7, 7, 55"])
      = .ok (.vlist [.astr "2024, 7, 7, 7, 55"]) :=
  ⟨by decide,
    date_string_nonstring_passthrough (fun _ => .ok 0)
      (.vlist [.astr "2024, 7, 7, 7, 55"]) (by decide) (fun s => by simp)⟩

/-- C9: the wire coercion maps True to "true" and False to "false", and
raises a TypeError for every non-boolean argument, including the
integers 0 and 1, the string "true", and None. -/
theorem boolean_to_wire_claim (v : PyV) (hv : ∀ b, v ≠ .vbool b) :
    boolean_to_wire (.vbool true) = .ok "true"
    ∧ boolean_to_wire (.vbool false) = .ok "false"
    ∧ boolean_to_wire v
      = .error (.typeError ("value must be of type: boolean, not "
          ++ pyTypeName v ++ "."))
    ∧ (∀ w : PyV, w = .vint 0 ∨ w = .vint 1 ∨ w = .vstr "true" ∨ w = .vnone →
        ∃ msg, boolean_to_wire w = .error (.typeError msg)) := by
  refine ⟨rfl, rfl, ?_, ?_⟩
  · cases v with
    | vbool b => exact absurd rfl (hv b)
    | vnone => rfl
    | vint n => rfl
    | vstr s => rfl
    | vlist xs => rfl
    | vtuple xs => rfl
  · rintro w (rfl | rfl | rfl | rfl) <;> exact ⟨_, rfl⟩

/-- C9 witness: the coercion at the concrete non-boolean 1. -/
theorem boolean_to_wire_claim_witness :
    boolean_to_wire (.vbool true) = .ok "true"
    ∧ boolean_to_wire (.vbool false) = .ok "false"
    ∧ boolean_to_wire (.vint 1)
      = .error (.typeError "value must be of type: boolean, not <class int>.") := by
  have h := boolean_to_wire_claim (.vint 1) (fun b => by simp)
  exact ⟨h.1, h.2.1, h.2.2.1⟩

/-- C10 (amended): the splitting helpers build their result lists fresh,
so a single-string-element argument of the caller is returned unmodified;
but check_and_adjust_list_length pads a one-element list by list.append,
mutating the argument object of the caller in place (the final argument
contents equal the returned padded list), and split_int_array does the
same when the single element is already an integer.  Arguments of length
other than one are left unmodified. -/
theorem helpers_mutation_amended (l : List PyAtom) (flag : Bool)
    (sample : List Char) (s : String) (n : Int) :
    (l.length ≠ 1 → check_and_adjust_list_length l flag sample = (l, l))
    ∧ (l.length = 1 →
        (check_and_adjust_list_length l flag sample).1
          = l ++ [if flag then .aint (digitsToNat sample) else .astr (String.mk sample)]
        ∧ (check_and_adjust_list_length l flag sample).1
          = (check_and_adjust_list_length l flag sample).2)
    ∧ (∀ out, split_string_array [.astr s] sample = .ok out → out.1 = [.astr s])
    ∧ (∀ out, split_int_array [.astr s] sample = .ok out → out.1 = [.astr s])
    ∧ split_int_array [.aint n] sample
      = .ok ([.aint n, .aint (digitsToNat sample)], [.aint n, .aint (digitsToNat sample)]) := by
  refine ⟨?_, ?_, ?_, ?_, ?_⟩
  · intro hl
    unfold check_and_adjust_list_length
    rcases l with _ | ⟨a, t⟩
    · simp
    · rcases t with _ | ⟨b, t2⟩
      · exact absurd rfl hl
      · simp
  · intro hl
    unfold check_and_adjust_list_length
    have hne : l.isEmpty = false := by
      cases l <;> simp_all
    simp [hne, hl]
  · intro out hout
    obtain ⟨res, h⟩ := split_string_array_single s sample
    rw [h] at hout
    simp only [Except.ok.injEq] at hout
    rw [← hout]
  · intro out hout
    exact split_int_array_single_str s sample out hout
  · unfold split_int_array
    simp [isIntNonBool]

/-- C10 witness: the amended mutation behavior at concrete inputs. -/
theorem helpers_mutation_amended_witness :
    check_and_adjust_list_length [.astr "3D", .astr "xyz"] false "Abc1wxyz".data
      = ([.astr "3D", .astr "xyz"], [.astr "3D", .astr "xyz"])
    ∧ (check_and_adjust_list_length [.astr "3Def5"] false "Abc1wxyz".data).1
      = [.astr "3Def5", .astr "Abc1wxyz"]
    ∧ (∀ out, split_int_array [.astr "7"] "12345678".data = .ok out →
        out.1 = [.astr "7"])
    ∧ split_int_array [.aint 5] "12345678".data
      = .ok ([.aint 5, .aint 12345678], [.aint 5, .aint 12345678]) := by
  have h1 := helpers_mutation_amended [.astr "3D", .astr "xyz"] false
    "Abc1wxyz".data "7" 5
  have h2 := helpers_mutation_amended [.astr "3Def5"] false "Abc1wxyz".data "7" 5
  have h3 := helpers_mutation_amended [.astr "3Def5"] false "12345678".data "7" 5
  refine ⟨h1.1 (by decide), ?_, h3.2.2.2.1, ?_⟩
  · have := (h2.2.1 (by decide)).1
    simpa using this
  · have := h3.2.2.2.2
    simpa using this

/-- C10 counterexample: check_and_adjust_list_length on the one-element
list ["3Def5"] leaves the argument object of the caller holding two
elements, so the helper is not free of side effects on its argument; the
same happens to split_int_array on a one-element integer list. -/
theorem helpers_mutation_cex :
    (check_and_adjust_list_length [.astr "3Def5"] false "Abc1wxyz".data).1
      = [.astr "3Def5", .astr "Abc1wxyz"]
    ∧ (check_and_adjust_list_length [.astr "3Def5"] false "Abc1wxyz".data).1
      ≠ [.astr "3Def5"]
    ∧ split_int_array [.aint 5] "12345678".data
      = .ok ([.aint 5, .aint 12345678], [.aint 5, .aint 12345678])
    ∧ ([PyAtom.aint 5, .aint 12345678] ≠ [.aint 5]) := by
  decide

end ClickupAPI
